import Mathlib

/-!
# SimpleCalc — verification of the expression-buffer / evaluator logic

Shallow embedding of the calculator logic of this repository.  The
repository holds near-duplicate variants of the same widget:

* `Basic` embeds the variant of `script.js` / `part_001` (character
  whitelist includes `%`, no preprocessing pass);
* `Full` embeds the richer variant of `part_000` (preprocessing pass,
  unary functions, persisted memory register, whitelist without `%`).

JavaScript numbers are modelled by `JSNum` (an exact rational together
with the `NaN` / `±Infinity` sentinels); the model is exact on every
value the theorems below evaluate.  The process-wide mutable `buffer`
is made explicit: each operation takes the buffer (or calculator state)
and returns the updated one, following the single-writer event-loop
discipline of the source.
-/

namespace SimpleCalc

/-- The JavaScript `\s` / `String.prototype.trim` whitespace set
(WhiteSpace ∪ LineTerminator of ECMA-262): TAB LF VT FF CR SP NBSP,
the Unicode space separators, LS, PS and ZWNBSP. -/
def isJsWhitespace (c : Char) : Bool :=
  let n := c.toNat
  n = 0x9 || n = 0xA || n = 0xB || n = 0xC || n = 0xD || n = 0x20 ||
  n = 0xA0 || n = 0x1680 || (0x2000 ≤ n && n ≤ 0x200A) ||
  n = 0x2028 || n = 0x2029 || n = 0x202F || n = 0x205F ||
  n = 0x3000 || n = 0xFEFF

/-- `String.prototype.trim`: strip leading and trailing JS whitespace
(`buffer.trim()` in every `evaluateExpression` variant). -/
def jsTrim (s : String) : String :=
  ⟨((s.toList.dropWhile isJsWhitespace).reverse.dropWhile isJsWhitespace).reverse⟩

/-- A JavaScript number: an exact rational, or one of the IEEE
sentinels `NaN`, `Infinity`, `-Infinity`.  Exact rationals stand in for
doubles; every concrete value evaluated in the theorems below is
exactly representable, where the two semantics agree. -/
inductive JSNum where
  | num (q : ℚ)
  | nan
  | inf
  | negInf
  deriving DecidableEq, Repr

namespace JSNum

/-- JS binary `+` on numbers. -/
def add : JSNum → JSNum → JSNum
  | num a, num b => num (a + b)
  | nan, _ | _, nan => nan
  | inf, negInf | negInf, inf => nan
  | inf, _ | _, inf => inf
  | negInf, _ | _, negInf => negInf

/-- JS unary `-` on numbers. -/
def neg : JSNum → JSNum
  | num a => num (-a)
  | nan => nan
  | inf => negInf
  | negInf => inf

/-- JS binary `-` on numbers. -/
def sub (a b : JSNum) : JSNum := add a (neg b)

/-- JS binary `*` on numbers. -/
def mul : JSNum → JSNum → JSNum
  | num a, num b => num (a * b)
  | nan, _ | _, nan => nan
  | inf, num b | num b, inf =>
      if b = 0 then nan else if 0 < b then inf else negInf
  | negInf, num b | num b, negInf =>
      if b = 0 then nan else if 0 < b then negInf else inf
  | inf, inf | negInf, negInf => inf
  | inf, negInf | negInf, inf => negInf

/-- JS binary `/` on numbers (division by zero gives `±Infinity`,
`0/0` gives `NaN` — it never throws). -/
def div : JSNum → JSNum → JSNum
  | num a, num b =>
      if b = 0 then
        if a = 0 then nan else if 0 < a then inf else negInf
      else num (a / b)
  | nan, _ | _, nan => nan
  | inf, inf | inf, negInf | negInf, inf | negInf, negInf => nan
  | inf, num b => if 0 ≤ b then inf else negInf
  | negInf, num b => if 0 ≤ b then negInf else inf
  | num _, inf | num _, negInf => num 0

/-- JS `**` on numbers, modelled for integer exponents (the only ones
the repository's expressions can produce that stay exact); fractional
exponents collapse to `NaN` in the model. -/
def pow : JSNum → JSNum → JSNum
  | num a, num b =>
      if b.den = 1 then
        if 0 ≤ b.num then num (a ^ b.num.toNat)
        else if a = 0 then inf else num ((1 / a) ^ (-b.num).toNat)
      else nan
  | _, _ => nan

end JSNum

/-- Numeric value of a digit string (most significant first). -/
def natOfDigits (ds : List Char) : ℕ :=
  ds.foldl (fun acc c => 10 * acc + (c.toNat - '0'.toNat)) 0

/-- Drop leading JS whitespace from a character stream. -/
def skipWs (cs : List Char) : List Char :=
  cs.dropWhile isJsWhitespace

/-- Parse a decimal numeric literal (`123`, `1.5`, `.5`, `5.`) at the
head of the stream, returning its exact rational value and the rest. -/
def parseNumber (cs : List Char) : Option (ℚ × List Char) :=
  let ds := cs.takeWhile Char.isDigit
  let r := cs.dropWhile Char.isDigit
  match r with
  | '.' :: r2 =>
      let fs := r2.takeWhile Char.isDigit
      let r3 := r2.dropWhile Char.isDigit
      if ds.isEmpty && fs.isEmpty then none
      else some (((natOfDigits ds : ℚ) + (natOfDigits fs : ℚ) / (10 : ℚ) ^ fs.length), r3)
  | _ =>
      if ds.isEmpty then none else some ((natOfDigits ds : ℚ), r)

/- Modelled from the spec: the generic dynamic-code-execution facility
(`new Function('return ' + expr)()`) applied to a whitelisted
arithmetic string — "equivalent to constructing an anonymous function
body `return <expr>` and invoking it with no external variable
bindings".  A fuel-indexed recursive-descent evaluator over exact
rationals with JS precedence: `+ -` < `* /` < `**` (right-assoc) <
unary sign < literals and parentheses.  `none` models a thrown
`SyntaxError`. -/
mutual

/-- Modelled from the spec: additive level of the dynamic evaluator. -/
def parseAddSub : ℕ → List Char → Option (JSNum × List Char)
  | 0, _ => none
  | f + 1, cs => do
      let (v, r) ← parseMulDiv f cs
      parseAddSubAux f v r

def parseAddSubAux : ℕ → JSNum → List Char → Option (JSNum × List Char)
  | 0, _, _ => none
  | f + 1, v, cs =>
      match skipWs cs with
      | '+' :: r => do
          let (w, r') ← parseMulDiv f r
          parseAddSubAux f (JSNum.add v w) r'
      | '-' :: r => do
          let (w, r') ← parseMulDiv f r
          parseAddSubAux f (JSNum.sub v w) r'
      | _ => some (v, cs)

def parseMulDiv : ℕ → List Char → Option (JSNum × List Char)
  | 0, _ => none
  | f + 1, cs => do
      let (v, r) ← parsePow f cs
      parseMulDivAux f v r

def parseMulDivAux : ℕ → JSNum → List Char → Option (JSNum × List Char)
  | 0, _, _ => none
  | f + 1, v, cs =>
      match skipWs cs with
      | '*' :: r => do
          let (w, r') ← parsePow f r
          parseMulDivAux f (JSNum.mul v w) r'
      | '/' :: r => do
          let (w, r') ← parsePow f r
          parseMulDivAux f (JSNum.div v w) r'
      | _ => some (v, cs)

def parsePow : ℕ → List Char → Option (JSNum × List Char)
  | 0, _ => none
  | f + 1, cs => do
      let (v, r) ← parseUnary f cs
      match skipWs r with
      | '*' :: '*' :: r2 => do
          let (w, r') ← parsePow f r2
          some (JSNum.pow v w, r')
      | _ => some (v, r)

def parseUnary : ℕ → List Char → Option (JSNum × List Char)
  | 0, _ => none
  | f + 1, cs =>
      match skipWs cs with
      | '-' :: r => do
          let (v, r') ← parseUnary f r
          some (JSNum.neg v, r')
      | '+' :: r => parseUnary f r
      | cs' => parseAtom f cs'

def parseAtom : ℕ → List Char → Option (JSNum × List Char)
  | 0, _ => none
  | f + 1, cs =>
      match skipWs cs with
      | '(' :: r => do
          let (v, r') ← parseAddSub f r
          match skipWs r' with
          | ')' :: r2 => some (v, r2)
          | _ => none
      | cs' => do
          let (q, r) ← parseNumber cs'
          some (JSNum.num q, r)

end

/-- Modelled from the spec: evaluating the whole expression string by
the dynamic-code-execution facility; `none` stands for a thrown
exception (syntax error), `some v` for a returned number. -/
def evalArith (expr : String) : Option JSNum := do
  let cs := expr.toList
  let (v, r) ← parseAddSub (8 * cs.length + 8) cs
  if (skipWs r).isEmpty then some v else none

/-- Smallest `k` (searched up to `Nat.log 10 d + 2`) with `d ≤ n * 10 ^ k`:
the number of leading fractional zeros plus one for `n / d < 1`. -/
def firstPow10GE (n d : ℕ) : ℕ :=
  ((List.range (Nat.log 10 d + 2)).find? (fun k => decide (d ≤ n * 10 ^ k))).getD 0

/-- `⌊log₁₀ q⌋` for a positive rational, computed on the numerator and
denominator (decimal digit counts). -/
def floorLog10 (q : ℚ) : ℤ :=
  let n := q.num.natAbs
  let d := q.den
  if d ≤ n then ((Nat.toDigits 10 (n / d)).length - 1 : ℕ)
  else -(firstPow10GE n d : ℤ)

/-- Modelled from the spec: `Number.prototype.toPrecision(12)` re-parsed
by `parseFloat` — "rounded to 12 significant digits and re-parsed to
strip trailing zeros".  Exact rounding of the rational to 12 significant
decimal digits, ties away from zero as ECMA-262 prescribes. -/
def toPrecision12 (q : ℚ) : ℚ :=
  if q = 0 then 0
  else
    let scale : ℤ := 11 - floorLog10 |q|
    let digits : ℤ := ⌊|q| * (10 : ℚ) ^ scale + 1 / 2⌋
    (if q < 0 then -1 else 1) * (digits : ℚ) * (10 : ℚ) ^ (-scale)

/-- Print the integer `n` with a decimal point `k` digits from the
right (zero-padding the integer part), as JS number-to-string does for
plain decimal magnitudes. -/
def decimalString (n : ℤ) (k : ℕ) : String :=
  if k = 0 then toString n
  else
    let s := toString n.natAbs
    let s := if s.length ≤ k then String.mk (List.replicate (k + 1 - s.length) '0') ++ s else s
    (if n < 0 then "-" else "") ++ s.dropRight k ++ "." ++ s.takeRight k

/-- Modelled from the spec: `Number.prototype.toString` on a finite
non-integer value with a terminating decimal expansion — the shortest
decimal form, trailing zeros stripped.  (Values whose expansion does
not terminate within 40 digits fall back to the raw rational notation;
no theorem below reaches that case, as JS doubles there diverge from
exact rationals anyway.) -/
def minDecimalString (q : ℚ) : String :=
  match (List.range 41).find? (fun k => decide ((q * (10 : ℚ) ^ k).den = 1)) with
  | some k => decimalString (q * (10 : ℚ) ^ k).num k
  | none => toString q

/-- `String(value)` on a JS number (used by `memorySet` and
`memoryRecall`): integers print directly, other finite values print
their terminating decimal expansion, and the sentinels print their
names. -/
def jsNumToString : JSNum → String
  | .num q => if q.den = 1 then toString q.num else minDecimalString q
  | .nan => "NaN"
  | .inf => "Infinity"
  | .negInf => "-Infinity"

/-- The result-formatting step shared verbatim by `evaluateExpression`
and `applyFunction`:
`if (typeof result === 'number' && !Number.isInteger(result))
   buffer = parseFloat(result.toPrecision(12)).toString();
 else buffer = String(result);`
In the model every evaluation result is a number; `Number.isInteger`
holds exactly for rationals with denominator 1, and on `NaN` /
`±Infinity` the `toPrecision` round-trip is the identity string. -/
def formatResult : JSNum → String
  | .num q => if q.den = 1 then toString q.num else minDecimalString (toPrecision12 q)
  | .nan => "NaN"
  | .inf => "Infinity"
  | .negInf => "-Infinity"

/-- Magnitude part of `parseFloat`: an `Infinity` literal or a decimal
number prefix; anything else is `NaN`. -/
def jsParseFloatMag (cs : List Char) : JSNum :=
  if ("Infinity".toList).isPrefixOf cs then .inf
  else
    match parseNumber cs with
    | some (q, _) => .num q
    | none => .nan

/-- Modelled from the spec: `parseFloat` as used by `memoryGet` —
leading whitespace skipped, optional sign, then the longest numeric
prefix (trailing junk ignored); no numeric prefix gives `NaN`.
(Exponent notation is outside the model; the persisted strings the
theorems evaluate never use it.) -/
def jsParseFloat (s : String) : JSNum :=
  match skipWs s.toList with
  | '-' :: r => JSNum.neg (jsParseFloatMag r)
  | '+' :: r => jsParseFloatMag r
  | cs => jsParseFloatMag cs

/-- Modelled from the spec: `Math.sqrt` — exact on perfect squares of
rationals; inputs whose square root is irrational (a double
approximation in JS) collapse to `NaN` in the model, and negative
inputs give `NaN` as in JS.  No claim exercises this function. -/
def jsSqrt : JSNum → JSNum
  | .num q =>
      if q < 0 then .nan
      else
        let sn := Nat.sqrt q.num.natAbs
        let sd := Nat.sqrt q.den
        if sn * sn = q.num.natAbs ∧ sd * sd = q.den then .num ((sn : ℚ) / (sd : ℚ))
        else .nan
  | .nan => .nan
  | .inf => .inf
  | .negInf => .nan

namespace Basic

/-!
The variant of `script.js` / `part_001`: whitelist with `%`, no
preprocessing pass.  The mutable `buffer` is passed explicitly.
-/

/-- `append(char)`: replace a lone leading zero by an incoming digit,
otherwise concatenate (`if (buffer === '0' && char >= '0' && char <= '9')
buffer = char; else buffer += char;`). -/
def append (buffer : String) (char : Char) : String :=
  if buffer = "0" ∧ '0' ≤ char ∧ char ≤ '9' then String.singleton char
  else buffer.push char

/-- `clearAll()`: `buffer = '';`. -/
def clearAll (_buffer : String) : String := ""

/-- `del()`: `buffer = buffer.slice(0, -1);` — drop the last character
(no-op on the empty string). -/
def del (buffer : String) : String := buffer.dropRight 1

/-- `sanitizeExpression(expr)`:
`/^[0-9+\-*\x2f().%\s]+$/.test(expr)` — non-empty and every character
a digit, `+ - * / ( ) . %` or JS whitespace. -/
def sanitizeExpression (expr : String) : Bool :=
  !expr.isEmpty && expr.toList.all (fun c =>
    c.isDigit || c = '+' || c = '-' || c = '*' || c = '/' || c = '(' || c = ')' ||
    c = '.' || c = '%' || isJsWhitespace c)

/-- `evaluateExpression()`, parametrized by the dynamic-evaluation step
`f` (`new Function('return ' + expr)()`, with `f expr = none` modelling
a thrown exception): trim; empty → no-op; whitelist failure → `"Error"`;
thrown evaluation → `"Error"`; otherwise the formatted result.  That
this is a total Lean function embodies "no exception propagates out of
evaluate()". -/
def evaluateExpressionWith (f : String → Option JSNum) (buffer : String) : String :=
  let expr := jsTrim buffer
  if expr = "" then buffer
  else if !sanitizeExpression expr then "Error"
  else
    match f expr with
    | some result => formatResult result
    | none => "Error"

/-- `evaluateExpression()` with the dynamic step instantiated to the
arithmetic semantics `evalArith`. -/
def evaluateExpression (buffer : String) : String :=
  evaluateExpressionWith evalArith buffer

end Basic

namespace Full

/-!
The richer variant of `part_000`: preprocessing pass, whitelist without
`%`, unary functions and a persisted memory register.
-/

/-- `append(char)` of `part_000` — identical to the basic variant. -/
def append (buffer : String) (char : Char) : String :=
  if buffer = "0" ∧ '0' ≤ char ∧ char ≤ '9' then String.singleton char
  else buffer.push char

/-- `clearAll()` of `part_000`. -/
def clearAll (_buffer : String) : String := ""

/-- `del()` of `part_000`. -/
def del (buffer : String) : String := buffer.dropRight 1

/-- `preprocessExpression(expr)` of `part_000`: empty input gives `''`;
otherwise four global textual replacements, in source order.  The first
two patterns are transcribed byte-for-byte from the source file, whose
`×` and `÷` regex literals are encoding-corrupted into the mojibake
sequences `"ï¿½ï¿½"` and `"Ã·"` — so neither pattern can ever match the
real glyphs `×` (U+00D7) or `÷` (U+00F7). -/
def preprocessExpression (expr : String) : String :=
  if expr = "" then ""
  else ((((expr.replace "ï¿½ï¿½" "*").replace "Ã·" "/").replace "^" "**").replace "%" "/100")

/-- `sanitizeExpression(expr)` of `part_000`:
`/^[0-9+\-*\x2f().\s]+$/.test(expr)` — the same class as the basic
variant but without `%` (this variant validates after the percent
rewrite). -/
def sanitizeExpression (expr : String) : Bool :=
  !expr.isEmpty && expr.toList.all (fun c =>
    c.isDigit || c = '+' || c = '-' || c = '*' || c = '/' || c = '(' || c = ')' ||
    c = '.' || isJsWhitespace c)

/-- `evaluateExpression()` of `part_000`: trim; empty → no-op;
preprocess; whitelist failure → `"Error"`; thrown evaluation →
`"Error"`; otherwise the formatted result. -/
def evaluateExpressionWith (f : String → Option JSNum) (buffer : String) : String :=
  let raw := jsTrim buffer
  if raw = "" then buffer
  else
    let pre := preprocessExpression raw
    if !sanitizeExpression pre then "Error"
    else
      match f pre with
      | some result => formatResult result
      | none => "Error"

/-- `evaluateExpression()` of `part_000` with the arithmetic
semantics. -/
def evaluateExpression (buffer : String) : String :=
  evaluateExpressionWith evalArith buffer

/-- `applyFunction(fn)` of `part_000`: same trim / preprocess /
whitelist / evaluate pipeline, then one of `sqrt`, `square`,
`reciprocal` (explicitly `value === 0 ? NaN : 1 / value`), `negate`,
formatted by the same result-formatting step; an unknown `fn` returns
with the buffer untouched. -/
def applyFunctionWith (f : String → Option JSNum) (fn : String) (buffer : String) : String :=
  let raw := jsTrim buffer
  if raw = "" then buffer
  else
    let pre := preprocessExpression raw
    if !sanitizeExpression pre then "Error"
    else
      match f pre with
      | none => "Error"
      | some value =>
          match fn with
          | "sqrt" => formatResult (jsSqrt value)
          | "square" => formatResult (JSNum.mul value value)
          | "reciprocal" =>
              formatResult (if value = JSNum.num 0 then JSNum.nan
                            else JSNum.div (JSNum.num 1) value)
          | "negate" => formatResult (JSNum.neg value)
          | _ => buffer

/-- `applyFunction(fn)` with the arithmetic semantics. -/
def applyFunction (fn : String) (buffer : String) : String :=
  applyFunctionWith evalArith fn buffer

/-- The state of the richer variant: the expression buffer together
with the persisted memory register (`localStorage` entry under
`MEMORY_KEY`; `none` = key absent). -/
structure CalcState where
  buffer : String
  memory : Option String
  deriving DecidableEq, Repr

/-- `memoryGet()`: absent key → `0`; otherwise `parseFloat` the stored
string and fall back to `0` unless the result is finite. -/
def memoryGet (memory : Option String) : ℚ :=
  match memory with
  | none => 0
  | some raw =>
      match jsParseFloat raw with
      | .num n => n
      | _ => 0

/-- `memorySet(value)`: store `String(value)` under the memory key. -/
def memorySet (value : JSNum) (st : CalcState) : CalcState :=
  { st with memory := some (jsNumToString value) }

/-- `memoryClear()`: remove the persisted register. -/
def memoryClear (st : CalcState) : CalcState :=
  { st with memory := none }

/-- `evaluateForMemory()`: the evaluation pipeline with every failure
(empty trimmed buffer, whitelist rejection, thrown evaluation) mapped
to `null`; a successful evaluation returns the numeric value. -/
def evaluateForMemoryWith (f : String → Option JSNum) (buffer : String) : Option JSNum :=
  let raw := jsTrim buffer
  if raw = "" then none
  else
    let pre := preprocessExpression raw
    if !sanitizeExpression pre then none
    else
      match f pre with
      | some val => some val
      | none => none

/-- `memoryAdd()`: a `null` evaluation returns at once (no state
change); otherwise add the value into the register. -/
def memoryAddWith (f : String → Option JSNum) (st : CalcState) : CalcState :=
  match evaluateForMemoryWith f st.buffer with
  | none => st
  | some val => memorySet (JSNum.add (JSNum.num (memoryGet st.memory)) val) st

/-- `memorySub()`: as `memoryAdd` but subtracting. -/
def memorySubWith (f : String → Option JSNum) (st : CalcState) : CalcState :=
  match evaluateForMemoryWith f st.buffer with
  | none => st
  | some val => memorySet (JSNum.sub (JSNum.num (memoryGet st.memory)) val) st

/-- `memoryRecall()`: `buffer = String(memoryGet());`. -/
def memoryRecall (st : CalcState) : CalcState :=
  { st with buffer := jsNumToString (JSNum.num (memoryGet st.memory)) }

/-- `evaluateForMemory()` with the arithmetic semantics. -/
def evaluateForMemory (buffer : String) : Option JSNum :=
  evaluateForMemoryWith evalArith buffer

/-- `memoryAdd()` with the arithmetic semantics. -/
def memoryAdd (st : CalcState) : CalcState :=
  memoryAddWith evalArith st

/-- `memorySub()` with the arithmetic semantics. -/
def memorySub (st : CalcState) : CalcState :=
  memorySubWith evalArith st

end Full

/-!
## Theorems settling the claims
-/

/-- C1: for every buffer whose trimmed content is non-empty, a whitelist
rejection sets the buffer to exactly `"Error"`, and so does a thrown
dynamic evaluation (`f expr = none`, for ANY dynamic-evaluation step
`f`); both error kinds collapse to the same resulting buffer, and no
exception propagates out of `evaluateExpression` — the embedding is a
total function. -/
theorem evaluate_error_collapse (f : String → Option JSNum) (buffer : String)
    (hne : jsTrim buffer ≠ "") :
    (Basic.sanitizeExpression (jsTrim buffer) = false →
      Basic.evaluateExpressionWith f buffer = "Error") ∧
    (Basic.sanitizeExpression (jsTrim buffer) = true → f (jsTrim buffer) = none →
      Basic.evaluateExpressionWith f buffer = "Error") := by
  constructor
  · intro hs
    simp [Basic.evaluateExpressionWith, hne, hs]
  · intro hs hf
    simp [Basic.evaluateExpressionWith, hne, hs, hf]

/-- Witness for the theorem of C1: the whitelist arm at `"2+a"` and the
thrown-evaluation arm at `"(()"` (the spec's own example of a string the
whitelist passes but evaluation rejects). -/
theorem evaluate_error_collapse_witness :
    Basic.evaluateExpressionWith evalArith "2+a" = "Error" ∧
    Basic.evaluateExpressionWith evalArith "(()" = "Error" :=
  ⟨(evaluate_error_collapse evalArith "2+a" (by decide)).1 (by decide),
   (evaluate_error_collapse evalArith "(()" (by decide)).2 (by decide)
     (by with_unfolding_all decide)⟩

/-- C2: the `^ → **` and `% → /100` rewrites of `preprocessExpression`
work as specified (`"50%"` evaluates to `"0.5"`), but the multiplication
and division glyphs are NOT rewritten: the source file's `×` and `÷`
regex literals are encoding-corrupted mojibake (`"ï¿½ï¿½"`, `"Ã·"`), so
`"3×2"` and `"6÷2"` pass through preprocessing unchanged and evaluation
ends in `"Error"` instead of `"6"` and `"3"`. -/
theorem preprocess_glyph_bug :
    Full.preprocessExpression "3×2" = "3×2" ∧
    Full.preprocessExpression "6÷2" = "6÷2" ∧
    Full.evaluateExpression "3×2" = "Error" ∧
    Full.evaluateExpression "6÷2" = "Error" ∧
    Full.preprocessExpression "2^3" = "2**3" ∧
    Full.evaluateExpression "50%" = "0.5" := by
  with_unfolding_all decide

/-- C3: `append` concatenates the incoming token onto the buffer except
when the buffer is exactly `"0"` and the token is a digit `'0'..'9'`, in
which case the token replaces the buffer; in particular `append '5'` on
`"0"` gives `"5"` and on `"10"` gives `"105"` (in both variants). -/
theorem append_spec :
    (∀ (buffer : String) (c : Char), buffer ≠ "0" →
      Basic.append buffer c = buffer.push c) ∧
    (∀ c : Char, '0' ≤ c → c ≤ '9' → Basic.append "0" c = String.singleton c) ∧
    (∀ c : Char, ¬('0' ≤ c ∧ c ≤ '9') → Basic.append "0" c = String.push "0" c) ∧
    Basic.append "0" '5' = "5" ∧ Basic.append "10" '5' = "105" ∧
    Full.append "0" '5' = "5" ∧ Full.append "10" '5' = "105" := by
  refine ⟨?_, ?_, ?_, by decide, by decide, by decide, by decide⟩
  · intro b c hb
    simp [Basic.append, hb]
  · intro c h0 h9
    simp [Basic.append, h0, h9]
  · intro c h
    simp [Basic.append, h]

/-- Witness for the theorem of C3: the three conditional arms at
concrete tokens. -/
theorem append_spec_witness :
    Basic.append "10" '5' = String.push "10" '5' ∧
    Basic.append "0" '7' = String.singleton '7' ∧
    Basic.append "0" '.' = String.push "0" '.' :=
  ⟨append_spec.1 "10" '5' (by decide),
   append_spec.2.1 '7' (by decide) (by decide),
   append_spec.2.2.1 '.' (by decide)⟩

/-- Bridge between the Boolean digit test of the source's character
class and its propositional reading. -/
theorem char_isDigit_iff (c : Char) : c.isDigit = true ↔ '0' ≤ c ∧ c ≤ '9' := by
  simp only [Char.isDigit, Bool.and_eq_true, decide_eq_true_eq]
  exact Iff.rfl

/-- C4: `sanitizeExpression` accepts exactly the non-empty strings all
of whose characters are digits, `+ - * / ( ) . %` or JS whitespace; it
rejects the empty string; a non-empty all-whitespace string passes it
but is excluded upstream by the emptiness check of
`evaluateExpression`; and `%` is accepted only by the variant that
validates before the percent rewrite (`Full.sanitizeExpression`, which
runs after the rewrite, rejects it). -/
theorem sanitize_spec :
    (∀ expr : String, Basic.sanitizeExpression expr = true ↔
      (expr ≠ "" ∧ ∀ c ∈ expr.toList,
        ('0' ≤ c ∧ c ≤ '9') ∨ c = '+' ∨ c = '-' ∨ c = '*' ∨ c = '/' ∨
        c = '(' ∨ c = ')' ∨ c = '.' ∨ c = '%' ∨ isJsWhitespace c = true)) ∧
    Basic.sanitizeExpression "" = false ∧
    Basic.sanitizeExpression " " = true ∧
    (∀ f : String → Option JSNum, Basic.evaluateExpressionWith f " " = " ") ∧
    Basic.sanitizeExpression "%" = true ∧
    Full.sanitizeExpression "%" = false := by
  refine ⟨?_, by decide, by decide, ?_, by decide, by decide⟩
  · intro expr
    have hempty : (expr.isEmpty = false) ↔ ¬expr = "" := by
      rw [Bool.eq_false_iff, Ne, String.isEmpty_iff]
    simp only [Basic.sanitizeExpression, Bool.and_eq_true, Bool.not_eq_true',
      List.all_eq_true, Bool.or_eq_true, decide_eq_true_eq, char_isDigit_iff,
      String.toList, hempty, or_assoc, ne_eq]
  · intro f
    have h : jsTrim " " = "" := by decide
    simp [Basic.evaluateExpressionWith, h]

/-- Witness for the theorem of C4: the characterization applied at the
concrete accepted string `"1+2"`. -/
theorem sanitize_spec_witness : Basic.sanitizeExpression "1+2" = true :=
  (sanitize_spec.1 "1+2").mpr ⟨by decide, by decide⟩

/-- C5: on a buffer that is empty or all whitespace (trims to empty),
`evaluateExpression` of either variant is a no-op: the buffer is
returned exactly as it was — neither cleared nor set to `"Error"` —
for any dynamic-evaluation step `f`. -/
theorem evaluate_blank_noop (f : String → Option JSNum) (buffer : String)
    (h : jsTrim buffer = "") :
    Basic.evaluateExpressionWith f buffer = buffer ∧
    Full.evaluateExpressionWith f buffer = buffer := by
  constructor <;> simp [Basic.evaluateExpressionWith, Full.evaluateExpressionWith, h]

/-- Witness for the theorem of C5: a two-space buffer is left exactly
as it was. -/
theorem evaluate_blank_noop_witness :
    Basic.evaluateExpressionWith evalArith "  " = "  " ∧
    Full.evaluateExpressionWith evalArith "  " = "  " :=
  evaluate_blank_noop evalArith "  " (by decide)

/-- C6: successful numeric results are formatted by stringifying
integers directly and rounding non-integers to 12 significant digits
with trailing zeros stripped; `"2+2"` evaluates to `"4"` and `"10/4"`
to `"2.5"`. -/
theorem evaluate_format_spec :
    Basic.evaluateExpression "2+2" = "4" ∧
    Basic.evaluateExpression "10/4" = "2.5" ∧
    (∀ q : ℚ, q.den = 1 → formatResult (JSNum.num q) = toString q.num) ∧
    (∀ q : ℚ, q.den ≠ 1 →
      formatResult (JSNum.num q) = minDecimalString (toPrecision12 q)) ∧
    (∀ (f : String → Option JSNum) (buffer : String) (r : JSNum),
      jsTrim buffer ≠ "" → Basic.sanitizeExpression (jsTrim buffer) = true →
      f (jsTrim buffer) = some r →
      Basic.evaluateExpressionWith f buffer = formatResult r) := by
  refine ⟨by with_unfolding_all decide, by with_unfolding_all decide, ?_, ?_, ?_⟩
  · intro q hq
    simp [formatResult, hq]
  · intro q hq
    simp [formatResult, hq]
  · intro f buffer r h1 h2 h3
    simp [Basic.evaluateExpressionWith, h1, h2, h3]

/-- Witness for the theorem of C6: the formatting arms at `4` and
`5/2`, and the success path at buffer `"2+2"`. -/
theorem evaluate_format_spec_witness :
    formatResult (JSNum.num 4) = toString (4 : ℚ).num ∧
    formatResult (JSNum.num (5 / 2)) = minDecimalString (toPrecision12 (5 / 2)) ∧
    Basic.evaluateExpressionWith evalArith "2+2" = formatResult (JSNum.num 4) :=
  ⟨evaluate_format_spec.2.2.1 4 (by with_unfolding_all decide),
   evaluate_format_spec.2.2.2.1 (5 / 2) (by with_unfolding_all decide),
   evaluate_format_spec.2.2.2.2 evalArith "2+2" (JSNum.num 4) (by decide) (by decide)
     (by with_unfolding_all decide)⟩

/-- C7: `applyFunction 'reciprocal'` on any buffer that evaluates to
zero sets the buffer to `"NaN"` (the explicit `value === 0 ? NaN : 1 /
value` guard, pushed through the same result-formatting step
`formatResult` that `evaluateExpression` uses) and never throws — the
embedding is a total function. -/
theorem reciprocal_zero_nan (buffer : String) (hne : jsTrim buffer ≠ "")
    (hs : Full.sanitizeExpression (Full.preprocessExpression (jsTrim buffer)) = true)
    (hv : evalArith (Full.preprocessExpression (jsTrim buffer)) = some (JSNum.num 0)) :
    Full.applyFunction "reciprocal" buffer = "NaN" := by
  simp [Full.applyFunction, Full.applyFunctionWith, hne, hs, hv, formatResult]

/-- Witness for the theorem of C7: the reciprocal of the buffer `"0"`. -/
theorem reciprocal_zero_nan_witness :
    Full.applyFunction "reciprocal" "0" = "NaN" :=
  reciprocal_zero_nan "0" (by decide) (by with_unfolding_all decide)
    (by with_unfolding_all decide)

/-- C8: memory round-trip — from the default (absent) register and
buffer `"3"`, `memoryAdd` persists `"3"` into the register and
`memoryRecall` loads it back, leaving the buffer at `"3"`. -/
theorem memory_roundtrip :
    Full.memoryAdd ⟨"3", none⟩ = ⟨"3", some "3"⟩ ∧
    Full.memoryRecall (Full.memoryAdd ⟨"3", none⟩) = ⟨"3", some "3"⟩ := by
  with_unfolding_all decide

/-- C9 counterexample: the claim "the error state is exited only by
`clear()` or further `append` calls" is false — `del()` (Backspace) on
the buffer `"Error"` yields `"Erro"`, which leaves the error state
(`buffer` no longer holds the literal `"Error"`). -/
theorem del_exits_error_state :
    Basic.del "Error" = "Erro" ∧ ("Erro" : String) ≠ "Error" := by
  decide

/-- C9 (amended): once the buffer holds `"Error"`, `evaluateExpression`
keeps it there for every dynamic-evaluation step (the whitelist rejects
the letters), and the state is exited only by `clearAll` (to `""`), by
`append` (concatenating onto `"Error"` without crashing), or by `del`
(truncating to `"Erro"`). -/
theorem error_state_transitions :
    (∀ f : String → Option JSNum, Basic.evaluateExpressionWith f "Error" = "Error") ∧
    Basic.clearAll "Error" = "" ∧
    (∀ c : Char, Basic.append "Error" c = String.push "Error" c) ∧
    Basic.del "Error" = "Erro" := by
  refine ⟨?_, by decide, ?_, by decide⟩
  · intro f
    have h1 : jsTrim "Error" = "Error" := by decide
    have h2 : Basic.sanitizeExpression "Error" = false := by decide
    simp [Basic.evaluateExpressionWith, h1, h2]
  · intro c
    have h : ("Error" : String) ≠ "0" := by decide
    simp [Basic.append, h]

/-- C10: whenever the buffer trims to empty, fails the whitelist after
preprocessing, or its dynamic evaluation throws, `memoryAdd` and
`memorySub` are complete no-ops: the whole state — persisted register
AND buffer (so no `"Error"` either) — is returned unchanged. -/
theorem memory_noop_on_failure (f : String → Option JSNum) (st : Full.CalcState)
    (h : jsTrim st.buffer = "" ∨
         Full.sanitizeExpression (Full.preprocessExpression (jsTrim st.buffer)) = false ∨
         f (Full.preprocessExpression (jsTrim st.buffer)) = none) :
    Full.memoryAddWith f st = st ∧ Full.memorySubWith f st = st := by
  have hnone : Full.evaluateForMemoryWith f st.buffer = none := by
    rcases h with h | h | h
    · simp [Full.evaluateForMemoryWith, h]
    · by_cases hr : jsTrim st.buffer = "" <;>
        simp [Full.evaluateForMemoryWith, hr, h]
    · by_cases hr : jsTrim st.buffer = "" <;>
        by_cases hs : Full.sanitizeExpression (Full.preprocessExpression (jsTrim st.buffer)) <;>
        simp [Full.evaluateForMemoryWith, hr, hs, h]
  constructor <;> simp [Full.memoryAddWith, Full.memorySubWith, hnone]

/-- Witness for the theorem of C10: the whitelist-failure arm at buffer
`"2+a"` with a populated register. -/
theorem memory_noop_on_failure_witness :
    Full.memoryAddWith evalArith ⟨"2+a", some "7"⟩ = ⟨"2+a", some "7"⟩ ∧
    Full.memorySubWith evalArith ⟨"2+a", some "7"⟩ = ⟨"2+a", some "7"⟩ :=
  memory_noop_on_failure evalArith ⟨"2+a", some "7"⟩
    (Or.inr (Or.inl (by with_unfolding_all decide)))

end SimpleCalc
